/-
  Verification of the httpreqx request-execution pipeline.

  A shallow embedding of the Go sources:
  * Go header maps (`map[string]string`) are association lists with
    unique keys, written through an upsert operation;
  * pointer-valued fields (`*RequestOptions`, `*http.Client`) are
    addresses into an explicit heap, so aliasing between a client and
    the requests it creates is modelled faithfully;
  * `Request.Do` is modelled as a function from the request state and
    an environment of external outcomes (codec results, hook results,
    transport outcome) to an effect trace recording the returned value,
    whether the transport was reached, how often the response body was
    closed, and the order in which ready-hooks ran.
-/
import Mathlib

namespace Httpreqx

/-! ### Go string maps as association lists -/

/-- One upsert `m[k] = v` on a Go `map[string]string`, modelled on an
association list with unique keys: any entry for `k` is dropped and the
new binding added.  (Go map iteration order is unspecified, so only the
key→value content of the list is meaningful.) -/
def setHeaderKV (hs : List (String × String)) (k v : String) : List (String × String) :=
  hs.filter (fun p => ¬ p.1 = k) ++ [(k, v)]

/-- The copy loop `for k, v := range m { dst[k] = v }`. -/
def mergeHeaders (hs m : List (String × String)) : List (String × String) :=
  m.foldl (fun acc p => setHeaderKV acc p.1 p.2) hs

/-- Go map lookup `m[k]`. -/
def getHeader (hs : List (String × String)) (k : String) : Option String :=
  (hs.find? (fun p => p.1 = k)).map (fun p => p.2)

/-! ### Option Set values (`RequestOptions`, part_003) -/

/-- A `BodyMarshaler` reference: the strategy objects are immutable, so a
reference value suffices. -/
inductive BodyMarshalerRef
  | noop
  | json
  | other (n : Nat)
deriving DecidableEq

/-- A `BodyUnmarshaler` reference. -/
inductive BodyUnmarshalerRef
  | noop
  | json
  | other (n : Nat)
deriving DecidableEq

/-- An `onErrorHook` entry: the diagnostic dump hook installed by
`SetDumpOnError`, or a user-supplied hook identified opaquely. -/
inductive ErrorHook
  | dump
  | custom (n : Nat)
deriving DecidableEq

/-- The `RequestOptions` struct.  `Headers = none` models a nil Go map.
Single hooks are opaque identifiers. -/
structure RequestOptionsV where
  BodyMarshaler : Option BodyMarshalerRef
  BodyUnmarshaler : Option BodyUnmarshalerRef
  Headers : Option (List (String × String))
  OnRequestReady : Option Nat
  OnResponseReady : Option Nat
  OnErrorHooks : List ErrorHook
  StackTraceEnabled : Bool
deriving DecidableEq

def RequestOptionsV.setBodyMarshaler (o : RequestOptionsV) (m : BodyMarshalerRef) :
    RequestOptionsV :=
  { o with BodyMarshaler := some m }

def RequestOptionsV.setBodyUnmarshaler (o : RequestOptionsV) (u : BodyUnmarshalerRef) :
    RequestOptionsV :=
  { o with BodyUnmarshaler := some u }

/-- `RequestOptions.SetHeaders`: allocate the map when nil, then upsert
every entry of the argument map. -/
def RequestOptionsV.setHeaders (o : RequestOptionsV) (m : List (String × String)) :
    RequestOptionsV :=
  { o with Headers := some (mergeHeaders (o.Headers.getD []) m) }

/-- `RequestOptions.SetHeader`: delegates to `SetHeaders` with a
singleton map literal. -/
def RequestOptionsV.setHeader (o : RequestOptionsV) (k v : String) : RequestOptionsV :=
  o.setHeaders [(k, v)]

def RequestOptionsV.setOnRequestReady (o : RequestOptionsV) (hk : Nat) : RequestOptionsV :=
  { o with OnRequestReady := some hk }

def RequestOptionsV.setOnResponseReady (o : RequestOptionsV) (hk : Nat) : RequestOptionsV :=
  { o with OnResponseReady := some hk }

def RequestOptionsV.setStackTraceEnabled (o : RequestOptionsV) (enabled : Bool) :
    RequestOptionsV :=
  { o with StackTraceEnabled := enabled }

/-- `RequestOptions.SetDumpOnError`: enables stack traces, then replaces
the whole error-hook list (`make` + one `append`) with the single
diagnostic dump hook. -/
def RequestOptionsV.setDumpOnError (o : RequestOptionsV) : RequestOptionsV :=
  let o := o.setStackTraceEnabled true
  { o with OnErrorHooks := [] ++ [ErrorHook.dump] }

/-- `RequestOptions.Clone`: fresh header map filled by a copy loop,
fresh error-hook slice, codec and hook references copied. -/
def RequestOptionsV.clone (o : RequestOptionsV) : RequestOptionsV :=
  { BodyMarshaler := o.BodyMarshaler
    BodyUnmarshaler := o.BodyUnmarshaler
    Headers := some (mergeHeaders [] (o.Headers.getD []))
    OnRequestReady := o.OnRequestReady
    OnResponseReady := o.OnResponseReady
    OnErrorHooks := [] ++ o.OnErrorHooks
    StackTraceEnabled := o.StackTraceEnabled }

/-! ### The heap: pointer identity for option sets and transports -/

/-- Write one cell of an address-indexed store. -/
def writeCell {α : Type} (f : Nat → α) (a : Nat) (v : α) : Nat → α :=
  fun x => if x = a then v else f x

theorem writeCell_same {α : Type} (f : Nat → α) (a : Nat) (v : α) :
    writeCell f a v a = v := by
  simp [writeCell]

theorem writeCell_ne {α : Type} (f : Nat → α) (a : Nat) (v : α) (x : Nat) (h : x ≠ a) :
    writeCell f a v x = f x := by
  simp [writeCell, h]

/-- The heap: a store of `RequestOptions` values and a store of
transport handles (carrying their timeout).  `optsNext` and
`transportsNext` are allocation counters; an address is valid when it is
below the counter. -/
structure Heap where
  opts : Nat → RequestOptionsV
  optsNext : Nat
  transports : Nat → Nat
  transportsNext : Nat

/-- `HttpClient`: a transport handle and a pointer to its default
`RequestOptions`. -/
structure HttpClient where
  clientAddr : Nat
  requestOptionsAddr : Nat
deriving DecidableEq

/-- `time.Second` in nanoseconds. -/
def goSecond : Nat := 1000000000

/-- `NewHttpClient`: fresh transport with a 20s timeout, fresh option
set with the noop codec pair and everything else zero-valued. -/
def NewHttpClient (h : Heap) : Heap × HttpClient :=
  let t := h.transportsNext
  let o := h.optsNext
  ({ opts := writeCell h.opts o
       { BodyMarshaler := some BodyMarshalerRef.noop
         BodyUnmarshaler := some BodyUnmarshalerRef.noop
         Headers := none
         OnRequestReady := none
         OnResponseReady := none
         OnErrorHooks := []
         StackTraceEnabled := false }
     optsNext := o + 1
     transports := writeCell h.transports t (20 * goSecond)
     transportsNext := t + 1 },
   { clientAddr := t, requestOptionsAddr := o })

/-- Apply an in-place mutation to the option set stored at `a`. -/
def updateOpts (h : Heap) (a : Nat) (f : RequestOptionsV → RequestOptionsV) : Heap :=
  { h with opts := writeCell h.opts a (f (h.opts a)) }

/-- `HttpClient.Clone`: new transport handle with the timeout copied by
value, and a deep clone of the option set at a fresh address. -/
def HttpClient.Clone (h : Heap) (c : HttpClient) : Heap × HttpClient :=
  let t := h.transportsNext
  let o := h.optsNext
  ({ opts := writeCell h.opts o (h.opts c.requestOptionsAddr).clone
     optsNext := o + 1
     transports := writeCell h.transports t (h.transports c.clientAddr)
     transportsNext := t + 1 },
   { clientAddr := t, requestOptionsAddr := o })

def HttpClient.SetHeader (h : Heap) (c : HttpClient) (k v : String) : Heap :=
  updateOpts h c.requestOptionsAddr (fun o => o.setHeader k v)

def HttpClient.SetHeaders (h : Heap) (c : HttpClient) (m : List (String × String)) : Heap :=
  updateOpts h c.requestOptionsAddr (fun o => o.setHeaders m)

def HttpClient.SetTimeout (h : Heap) (c : HttpClient) (timeout : Nat) : Heap :=
  { h with transports := writeCell h.transports c.clientAddr timeout }

def HttpClient.SetBodyMarshaler (h : Heap) (c : HttpClient) (m : BodyMarshalerRef) : Heap :=
  updateOpts h c.requestOptionsAddr (fun o => o.setBodyMarshaler m)

def HttpClient.SetBodyUnmarshaler (h : Heap) (c : HttpClient) (u : BodyUnmarshalerRef) :
    Heap :=
  updateOpts h c.requestOptionsAddr (fun o => o.setBodyUnmarshaler u)

def HttpClient.SetOnRequestReady (h : Heap) (c : HttpClient) (hk : Nat) : Heap :=
  updateOpts h c.requestOptionsAddr (fun o => o.setOnRequestReady hk)

def HttpClient.SetOnResponseReady (h : Heap) (c : HttpClient) (hk : Nat) : Heap :=
  updateOpts h c.requestOptionsAddr (fun o => o.setOnResponseReady hk)

def HttpClient.SetDumpOnError (h : Heap) (c : HttpClient) : Heap :=
  updateOpts h c.requestOptionsAddr (fun o => o.setDumpOnError)

def HttpClient.SetStackTraceEnabled (h : Heap) (c : HttpClient) (enabled : Bool) : Heap :=
  updateOpts h c.requestOptionsAddr (fun o => o.setStackTraceEnabled enabled)

/-- The `Request` struct: the `options` field is the address of a
`RequestOptions` cell; `body = none` models a nil body. -/
structure Request where
  client : HttpClient
  method : String
  path : String
  body : Option Nat
  unmarshalResult : Bool
  optionsAddr : Nat
deriving DecidableEq

/-- `HttpClient.NewRequest`: the new request's `options` field is the
client's `requestOptions` pointer, copied as an address. -/
def HttpClient.NewRequest (c : HttpClient) (method path : String) (body : Option Nat) :
    Request :=
  { client := c
    method := method
    path := path
    body := body
    unmarshalResult := false
    optionsAddr := c.requestOptionsAddr }

/-- `Request.WriteBodyTo`: requests decoding of the response body. -/
def Request.WriteBodyTo (r : Request) : Request :=
  { r with unmarshalResult := true }

def Request.SetHeader (h : Heap) (r : Request) (k v : String) : Heap :=
  updateOpts h r.optionsAddr (fun o => o.setHeader k v)

def Request.SetHeaders (h : Heap) (r : Request) (m : List (String × String)) : Heap :=
  updateOpts h r.optionsAddr (fun o => o.setHeaders m)

def Request.SetBodyMarshaler (h : Heap) (r : Request) (m : BodyMarshalerRef) : Heap :=
  updateOpts h r.optionsAddr (fun o => o.setBodyMarshaler m)

def Request.SetBodyUnmarshaler (h : Heap) (r : Request) (u : BodyUnmarshalerRef) : Heap :=
  updateOpts h r.optionsAddr (fun o => o.setBodyUnmarshaler u)

def Request.SetOnRequestReady (h : Heap) (r : Request) (hk : Nat) : Heap :=
  updateOpts h r.optionsAddr (fun o => o.setOnRequestReady hk)

def Request.SetOnResponseReady (h : Heap) (r : Request) (hk : Nat) : Heap :=
  updateOpts h r.optionsAddr (fun o => o.setOnResponseReady hk)

def Request.SetDumpOnError (h : Heap) (r : Request) : Heap :=
  updateOpts h r.optionsAddr (fun o => o.setDumpOnError)

def Request.SetStackTraceEnabled (h : Heap) (r : Request) (enabled : Bool) : Heap :=
  updateOpts h r.optionsAddr (fun o => o.setStackTraceEnabled enabled)

/-- The empty heap used as an allocation starting point. -/
def heap0 : Heap :=
  { opts := fun _ =>
      { BodyMarshaler := none
        BodyUnmarshaler := none
        Headers := none
        OnRequestReady := none
        OnResponseReady := none
        OnErrorHooks := []
        StackTraceEnabled := false }
    optsNext := 0
    transports := fun _ => 0
    transportsNext := 0 }

/-! ### Diagnostics (`debug.go`) -/

/-- The `EnrichedError` envelope: an underlying error (nil modelled as
`none`, otherwise its rendered message) and a captured stack string. -/
structure EnrichedError where
  Err : Option String
  Stack : String
deriving DecidableEq

/-- `EnrichedError.Error()`: the receiver may itself be nil (`none`). -/
def EnrichedError.errorRender : Option EnrichedError → String
  | none => "<nil>"
  | some e =>
    match e.Err with
    | none => "<nil>" ++ "\nStack trace:\n" ++ e.Stack
    | some m => if e.Stack = "" then m else m ++ "\nStack trace:\n" ++ e.Stack

/-- `enrichErrorWithStackTrace`: wraps the error together with the
freshly captured stack. -/
def enrichErrorWithStackTrace (msg stack : String) : EnrichedError :=
  { Err := some msg, Stack := stack }

/-! ### The execution model of `Request.Do` (part_002) -/

/-- The part of `http.Response` the pipeline inspects. -/
structure Response where
  Status : String
  StatusCode : Nat
deriving DecidableEq

/-- `IsSuccessResponse` (part_006): nil-safe 2xx check. -/
def IsSuccessResponse (resp : Option Response) : Bool :=
  match resp with
  | none => false
  | some r => decide (200 ≤ r.StatusCode) && decide (r.StatusCode < 300)

/-- Identity of a before-request ready-hook, in the order `Do` may
register them. -/
inductive HookTag
  | marshalerReady
  | unmarshalerReady
  | userRequestReady
deriving DecidableEq

/-- Outcomes of everything external to the pipeline during one `Do`
call: codec results, hook results, request construction, the transport
dispatch, and the stack string captured on enrichment.  `none` models a
nil error returned by the corresponding call. -/
structure DoEnv where
  marshalErr : Option String
  newRequestErr : Option String
  marshalerHookErr : Option String
  unmarshalerHookErr : Option String
  requestReadyHookErr : Option String
  dispatch : Except String Response
  responseReadyHookErr : Option String
  unmarshalErr : Option String
  stack : String

/-- Result of running one registered ready-hook. -/
def DoEnv.hookErr (env : DoEnv) : HookTag → Option String
  | HookTag.marshalerReady => env.marshalerHookErr
  | HookTag.unmarshalerReady => env.unmarshalerHookErr
  | HookTag.userRequestReady => env.requestReadyHookErr

/-- The `for _, beforeHook := range beforeRequestHooks` loop: runs hooks
in order, stops at the first failure; returns the hooks actually run and
the first error, if any. -/
def runBeforeHooks (env : DoEnv) : List HookTag → List HookTag × Option String
  | [] => ([], none)
  | t :: ts =>
    match env.hookErr t with
    | some e => ([t], some e)
    | none =>
      let rest := runBeforeHooks env ts
      (t :: rest.1, rest.2)

/-- How one `Do` call ends: a normal return of `(resp, err)`, or a
runtime panic (nil-pointer dereference). -/
inductive DoOutcome
  | panics
  | result (resp : Option Response) (err : Option String)
deriving DecidableEq

/-- Observable effects of one `Do` call. -/
structure DoTrace where
  outcome : DoOutcome
  dispatched : Bool
  bodyCloses : Nat
  hooksRun : List HookTag
  statusErrorSynthesized : Bool
  errorHookBody : Option (Option Nat)
deriving DecidableEq

/-- `processError`: optional stack enrichment of the message, then the
error hooks observe `(req, resp, err, body)` for side effects only.  The
function yields the rendered message of the returned error. -/
def processErrorMsg (opts : RequestOptionsV) (env : DoEnv) (msg : String) : String :=
  if opts.StackTraceEnabled then
    EnrichedError.errorRender (some (enrichErrorWithStackTrace msg env.stack))
  else msg

/-- Snapshot of the `Request` fields `Do` reads, with the `options`
pointer dereferenced. -/
structure RequestState where
  method : String
  path : String
  body : Option Nat
  unmarshalResult : Bool
  options : RequestOptionsV

/-- Headers applied onto the freshly built transport request
(`req.Header.Set` over `r.options.Headers`; the loop is skipped when the
map is nil). -/
def appliedRequestHeaders (opts : RequestOptionsV) : List (String × String) :=
  match opts.Headers with
  | none => []
  | some hs => mergeHeaders [] hs

/-- Everything of `Request.Do` after a successful (or absent) body
marshaling step: request construction, header application, ready-hook
registration and execution, dispatch, the deferred body close, the
response-ready hook, the status-class check, and decoding.  `registered`
holds the marshaler ready-hook when a body was marshaled. -/
def doAfterMarshal (r : RequestState) (env : DoEnv) (registered : List HookTag) : DoTrace :=
  let opts := r.options
  match env.newRequestErr with
  | some e =>
    { outcome := DoOutcome.result none (some (processErrorMsg opts env e))
      dispatched := false
      bodyCloses := 0
      hooksRun := []
      statusErrorSynthesized := false
      errorHookBody := some r.body }
  | none =>
    let hooks := registered
      ++ (if opts.BodyUnmarshaler.isSome then [HookTag.unmarshalerReady] else [])
      ++ (if opts.OnRequestReady.isSome then [HookTag.userRequestReady] else [])
    let hr := runBeforeHooks env hooks
    match hr.2 with
    | some e =>
      { outcome := DoOutcome.result none
          (some (processErrorMsg opts env ("on request ready hook: " ++ e)))
        dispatched := false
        bodyCloses := 0
        hooksRun := hr.1
        statusErrorSynthesized := false
        errorHookBody := some r.body }
    | none =>
      match env.dispatch with
      | Except.error e =>
        -- the deferred close dereferences the nil response when
        -- decoding was requested
        if r.unmarshalResult then
          { outcome := DoOutcome.panics
            dispatched := true
            bodyCloses := 0
            hooksRun := hr.1
            statusErrorSynthesized := false
            errorHookBody := some r.body }
        else
          { outcome := DoOutcome.result none (some (processErrorMsg opts env e))
            dispatched := true
            bodyCloses := 0
            hooksRun := hr.1
            statusErrorSynthesized := false
            errorHookBody := some r.body }
      | Except.ok resp =>
        let closes := if r.unmarshalResult then 1 else 0
        match (if opts.OnResponseReady.isSome then env.responseReadyHookErr else none) with
        | some e =>
          { outcome := DoOutcome.result (some resp)
              (some (processErrorMsg opts env ("on response ready hook: " ++ e)))
            dispatched := true
            bodyCloses := closes
            hooksRun := hr.1
            statusErrorSynthesized := false
            errorHookBody := some r.body }
        | none =>
          if IsSuccessResponse (some resp) then
            if r.unmarshalResult then
              match opts.BodyUnmarshaler with
              | some _ =>
                match env.unmarshalErr with
                | some e =>
                  { outcome := DoOutcome.result (some resp)
                      (some (processErrorMsg opts env ("body unmarshaling: " ++ e)))
                    dispatched := true
                    bodyCloses := closes
                    hooksRun := hr.1
                    statusErrorSynthesized := false
                    errorHookBody := some r.body }
                | none =>
                  { outcome := DoOutcome.result (some resp) none
                    dispatched := true
                    bodyCloses := closes
                    hooksRun := hr.1
                    statusErrorSynthesized := false
                    errorHookBody := none }
              | none =>
                { outcome := DoOutcome.result (some resp)
                    (some (processErrorMsg opts env
                      "result destination is provided but body unmarshaler is not set"))
                  dispatched := true
                  bodyCloses := closes
                  hooksRun := hr.1
                  statusErrorSynthesized := false
                  errorHookBody := some r.body }
            else
              { outcome := DoOutcome.result (some resp) none
                dispatched := true
                bodyCloses := 0
                hooksRun := hr.1
                statusErrorSynthesized := false
                errorHookBody := none }
          else
            { outcome := DoOutcome.result (some resp)
                (some (processErrorMsg opts env
                  (resp.Status ++ ":" ++ toString resp.StatusCode)))
              dispatched := true
              bodyCloses := closes
              hooksRun := hr.1
              statusErrorSynthesized := true
              errorHookBody := some r.body }

/-- `Request.Do` on a request-state snapshot: the body marshaling phase,
then `doAfterMarshal`. -/
def RequestState.Do (r : RequestState) (env : DoEnv) : DoTrace :=
  match r.body with
  | none => doAfterMarshal r env []
  | some _ =>
    match r.options.BodyMarshaler with
    | none =>
      { outcome := DoOutcome.result none
          (some (processErrorMsg r.options env "body marshaler is not set"))
        dispatched := false
        bodyCloses := 0
        hooksRun := []
        statusErrorSynthesized := false
        errorHookBody := some r.body }
    | some _ =>
      match env.marshalErr with
      | some e =>
        { outcome := DoOutcome.result none
            (some (processErrorMsg r.options env ("body marshaling: " ++ e)))
          dispatched := false
          bodyCloses := 0
          hooksRun := []
          statusErrorSynthesized := false
          errorHookBody := some r.body }
      | none => doAfterMarshal r env [HookTag.marshalerReady]

/-- `Request.Do` on a heap-resident request: dereference the `options`
pointer and run the snapshot model. -/
def Request.Do (h : Heap) (r : Request) (env : DoEnv) : DoTrace :=
  RequestState.Do
    { method := r.method
      path := r.path
      body := r.body
      unmarshalResult := r.unmarshalResult
      options := h.opts r.optionsAddr }
    env

/-! ### Header maps as heap cells (reference semantics of Go maps)

For the aliasing behaviour of `RequestOptions.SetHeaders` the argument
map `m` is itself a mutable object; this refined model stores every map
in an address-indexed heap. -/

/-- A heap of Go string maps. -/
structure MapHeap where
  cells : Nat → List (String × String)
  next : Nat

/-- Mutate the map stored at `a` (one upsert), as caller code would
after handing the map to `SetHeaders`. -/
def MapHeap.writeEntry (h : MapHeap) (a : Nat) (k v : String) : MapHeap :=
  { h with cells := writeCell h.cells a (setHeaderKV (h.cells a) k v) }

/-- The `Headers` field of a `RequestOptions`, under reference
semantics: nil or the address of a map. -/
structure OptionsHeadersField where
  HeadersAddr : Option Nat
deriving DecidableEq

/-- `RequestOptions.SetHeaders` under reference semantics: allocate the
receiver's own map when the field is nil, then copy every entry of the
argument map into the receiver's map. -/
def setHeadersOnHeap (h : MapHeap) (o : OptionsHeadersField) (mAddr : Nat) :
    MapHeap × OptionsHeadersField :=
  match o.HeadersAddr with
  | none =>
    let fresh := h.next
    ({ cells := writeCell h.cells fresh (mergeHeaders [] (h.cells mAddr))
       next := h.next + 1 },
     { HeadersAddr := some fresh })
  | some a =>
    ({ h with cells := writeCell h.cells a (mergeHeaders (h.cells a) (h.cells mAddr)) },
     o)

/-! ### Lookup lemmas for the header model -/

theorem getHeader_setHeaderKV_same (hs : List (String × String)) (k v : String) :
    getHeader (setHeaderKV hs k v) k = some v := by
  have hnone : (hs.filter (fun p => ¬ p.1 = k)).find? (fun p => p.1 = k) = none := by
    rw [List.find?_eq_none]
    intro p hp
    have := List.of_mem_filter hp
    simpa using this
  simp [getHeader, setHeaderKV, List.find?_append, hnone]

theorem find?_filterNotKey (t : List (String × String)) (k q : String) (hkq : ¬ k = q) :
    (t.filter (fun p => ¬ p.1 = k)).find? (fun p => p.1 = q)
      = t.find? (fun p => p.1 = q) := by
  induction t with
  | nil => rfl
  | cons p t ih =>
    rw [List.filter_cons]
    by_cases hp : p.1 = k
    · have hpq : ¬ p.1 = q := by rw [hp]; exact hkq
      rw [if_neg (by simp [hp]), ih,
        List.find?_cons_of_neg _ (by simpa using hpq)]
    · rw [if_pos (by simp [hp])]
      by_cases hpq : p.1 = q
      · rw [List.find?_cons_of_pos _ (by simpa using hpq),
          List.find?_cons_of_pos _ (by simpa using hpq)]
      · rw [List.find?_cons_of_neg _ (by simpa using hpq),
          List.find?_cons_of_neg _ (by simpa using hpq), ih]

theorem getHeader_setHeaderKV_ne (hs : List (String × String)) (k v q : String)
    (hq : q ≠ k) : getHeader (setHeaderKV hs k v) q = getHeader hs q := by
  have hkq : ¬ k = q := fun h => hq h.symm
  simp only [getHeader, setHeaderKV, List.find?_append, find?_filterNotKey hs k q hkq]
  cases hfind : hs.find? (fun p => decide (p.1 = q)) with
  | some p => simp
  | none => simp [hkq]

theorem getHeader_mergeHeaders_notMem (hs m : List (String × String)) (k : String)
    (hk : k ∉ m.map Prod.fst) :
    getHeader (mergeHeaders hs m) k = getHeader hs k := by
  induction m generalizing hs with
  | nil => simp [mergeHeaders]
  | cons p t ih =>
    simp only [List.map_cons, List.mem_cons, not_or] at hk
    have step : mergeHeaders hs (p :: t) = mergeHeaders (setHeaderKV hs p.1 p.2) t := by
      simp [mergeHeaders]
    rw [step]
    exact (ih _ hk.2).trans (getHeader_setHeaderKV_ne hs p.1 p.2 k hk.1)

theorem getHeader_mergeHeaders_mem (hs m : List (String × String)) (k v : String)
    (hnd : (m.map Prod.fst).Nodup) (hmem : (k, v) ∈ m) :
    getHeader (mergeHeaders hs m) k = some v := by
  induction m generalizing hs with
  | nil => cases hmem
  | cons p t ih =>
    simp only [List.map_cons, List.nodup_cons] at hnd
    have step : mergeHeaders hs (p :: t) = mergeHeaders (setHeaderKV hs p.1 p.2) t := by
      simp [mergeHeaders]
    rw [step]
    rcases List.mem_cons.mp hmem with hhead | htail
    · have hk : k = p.1 := congrArg Prod.fst hhead
      have hv : v = p.2 := congrArg Prod.snd hhead
      subst hk
      subst hv
      have hnot : p.1 ∉ t.map Prod.fst := by simpa using hnd.1
      rw [getHeader_mergeHeaders_notMem _ _ _ hnot, getHeader_setHeaderKV_same]
    · exact ih _ hnd.2 htail

theorem getHeader_mem (hs : List (String × String)) (k v : String)
    (h : getHeader hs k = some v) : (k, v) ∈ hs := by
  simp only [getHeader, Option.map_eq_some'] at h
  obtain ⟨⟨a, b⟩, hp, hv⟩ := h
  have hmem := List.mem_of_find?_eq_some hp
  have hkey := List.find?_some hp
  simp only [decide_eq_true_eq] at hkey
  simp only at hv
  rw [← hkey, ← hv]
  exact hmem

theorem getHeader_eq_none (hs : List (String × String)) (k : String)
    (h : k ∉ hs.map Prod.fst) : getHeader hs k = none := by
  simp only [getHeader, Option.map_eq_none', List.find?_eq_none]
  intro p hp
  simp only [decide_eq_true_eq]
  intro hk
  exact h (List.mem_map.mpr ⟨p, hp, hk⟩)

theorem keys_nodup_setHeaderKV (hs : List (String × String)) (k v : String)
    (hnd : (hs.map Prod.fst).Nodup) :
    ((setHeaderKV hs k v).map Prod.fst).Nodup := by
  simp only [setHeaderKV, List.map_append]
  rw [List.nodup_append]
  refine ⟨?_, List.nodup_singleton _, ?_⟩
  · exact List.Nodup.sublist ((List.filter_sublist hs).map Prod.fst) hnd
  · intro x hx hxk
    obtain ⟨p, hp, hpx⟩ := List.mem_map.mp hx
    have hfp := List.of_mem_filter hp
    simp only [decide_eq_true_eq] at hfp
    have hxval : x = k := by simpa using hxk
    exact hfp (hpx.trans hxval)

theorem keys_nodup_mergeHeaders (hs m : List (String × String))
    (hnd : (hs.map Prod.fst).Nodup) :
    ((mergeHeaders hs m).map Prod.fst).Nodup := by
  induction m generalizing hs with
  | nil => simpa [mergeHeaders] using hnd
  | cons p t ih =>
    have step : mergeHeaders hs (p :: t) = mergeHeaders (setHeaderKV hs p.1 p.2) t := by
      simp [mergeHeaders]
    rw [step]
    exact ih _ (keys_nodup_setHeaderKV hs p.1 p.2 hnd)

/-- Copying a unique-keys header map entry by entry into a fresh map
(the `Clone` loop and the header-application loop in `Do`) preserves
every lookup. -/
theorem getHeader_copy (l : List (String × String)) (k : String)
    (hnd : (l.map Prod.fst).Nodup) :
    getHeader (mergeHeaders [] l) k = getHeader l k := by
  cases hf : getHeader l k with
  | some v =>
    exact getHeader_mergeHeaders_mem [] l k v hnd (getHeader_mem l k v hf)
  | none =>
    have hk : k ∉ l.map Prod.fst := by
      intro hmem
      obtain ⟨p, hp, hpk⟩ := List.mem_map.mp hmem
      have hfind : l.find? (fun q => decide (q.1 = k)) = none := by
        simpa [getHeader, Option.map_eq_none'] using hf
      have hnp := List.find?_eq_none.mp hfind p hp
      simp [hpk] at hnp
    rw [getHeader_mergeHeaders_notMem [] l k hk]
    simp [getHeader]

/-! ### Execution-model lemmas -/

theorem runBeforeHooks_allPass (env : DoEnv) (l : List HookTag)
    (h : ∀ t ∈ l, env.hookErr t = none) : runBeforeHooks env l = (l, none) := by
  induction l with
  | nil => rfl
  | cons t ts ih =>
    have ht := h t (List.mem_cons_self t ts)
    simp [runBeforeHooks, ht, ih (fun x hx => h x (List.mem_cons_of_mem t hx))]

theorem runBeforeHooks_firstFail (env : DoEnv) (l1 : List HookTag) (t : HookTag)
    (l2 : List HookTag) (e : String)
    (h1 : ∀ x ∈ l1, env.hookErr x = none) (ht : env.hookErr t = some e) :
    runBeforeHooks env (l1 ++ t :: l2) = (l1 ++ [t], some e) := by
  induction l1 with
  | nil => simp [runBeforeHooks, ht]
  | cons x xs ih =>
    have hx := h1 x (List.mem_cons_self x xs)
    simp [runBeforeHooks, hx, ih (fun y hy => h1 y (List.mem_cons_of_mem x hy))]

/-- Whatever error rendering `processError` applies, the original
message stays a visible segment of the result. -/
theorem processErrorMsg_contains (opts : RequestOptionsV) (env : DoEnv) (pre mid : String) :
    ∃ p q, processErrorMsg opts env (pre ++ mid) = p ++ mid ++ q := by
  by_cases hst : opts.StackTraceEnabled
  · by_cases hs : env.stack = ""
    · refine ⟨pre, "", ?_⟩
      simp [processErrorMsg, enrichErrorWithStackTrace, EnrichedError.errorRender, hst, hs,
        String.append_empty]
    · refine ⟨pre, "\nStack trace:\n" ++ env.stack, ?_⟩
      simp only [processErrorMsg, enrichErrorWithStackTrace, EnrichedError.errorRender, hst,
        if_pos, hs, if_neg]
      rw [String.append_assoc]
      simp
  · refine ⟨pre, "", ?_⟩
    simp [processErrorMsg, hst, String.append_empty]

/-- The registration order of the before-request ready-hooks in `Do`:
the marshaler's hook (present exactly when a body is marshaled), then
the unmarshaler's hook, then the user-supplied request-ready hook. -/
def registeredHooks (r : RequestState) : List HookTag :=
  (if r.body.isSome then [HookTag.marshalerReady] else [])
    ++ (if r.options.BodyUnmarshaler.isSome then [HookTag.unmarshalerReady] else [])
    ++ (if r.options.OnRequestReady.isSome then [HookTag.userRequestReady] else [])

/-- When the marshaling phase succeeds (no body, or a configured
marshaler that encodes without error), `Do` proceeds to the
post-marshaling pipeline with the marshaler hook registered exactly when
a body is present. -/
theorem do_eq_afterMarshal (r : RequestState) (env : DoEnv)
    (hm : r.body.isSome = true → r.options.BodyMarshaler.isSome = true ∧ env.marshalErr = none) :
    RequestState.Do r env
      = doAfterMarshal r env (if r.body.isSome then [HookTag.marshalerReady] else []) := by
  cases hb : r.body with
  | none => simp [RequestState.Do, hb]
  | some b =>
    obtain ⟨hbm, hme⟩ := hm (by simp [hb])
    cases hbm' : r.options.BodyMarshaler with
    | none => rw [hbm'] at hbm; cases hbm
    | some m => simp [RequestState.Do, hb, hbm', hme]

theorem runBeforeHooks_none_run (env : DoEnv) (l : List HookTag)
    (h : (runBeforeHooks env l).2 = none) : (runBeforeHooks env l).1 = l := by
  induction l with
  | nil => rfl
  | cons t ts ih =>
    cases ht : env.hookErr t with
    | some e => simp [runBeforeHooks, ht] at h
    | none =>
      simp only [runBeforeHooks, ht] at h ⊢
      rw [ih h]

/-! ### C7 and C9 -/

/-- C7: enabling the diagnostic dump is idempotent and exclusive: after
any positive number of `SetDumpOnError` calls on any option set, the
error-hook list is exactly the one diagnostic dump hook (any
previously installed hooks, custom ones included, are overwritten, not
appended to), and `StackTraceEnabled` is set. -/
theorem setDumpOnError_exclusive_idempotent (o : RequestOptionsV) (n : Nat) :
    (RequestOptionsV.setDumpOnError^[n + 1] o).OnErrorHooks = [ErrorHook.dump]
      ∧ (RequestOptionsV.setDumpOnError^[n + 1] o).StackTraceEnabled = true
      ∧ o.setDumpOnError.setDumpOnError = o.setDumpOnError := by
  refine ⟨?_, ?_, ?_⟩
  · rw [Function.iterate_succ_apply']
    simp [RequestOptionsV.setDumpOnError, RequestOptionsV.setStackTraceEnabled]
  · rw [Function.iterate_succ_apply']
    simp [RequestOptionsV.setDumpOnError, RequestOptionsV.setStackTraceEnabled]
  · simp [RequestOptionsV.setDumpOnError, RequestOptionsV.setStackTraceEnabled]

/-- C9: an `EnrichedError` with an underlying error renders as
`"<message>\nStack trace:\n<stack>"` when a captured stack is present,
and as just the underlying error's message when no stack is present. -/
theorem enrichedError_render_spec (m s : String) :
    (s ≠ "" → EnrichedError.errorRender (some { Err := some m, Stack := s })
        = m ++ "\nStack trace:\n" ++ s)
      ∧ EnrichedError.errorRender (some { Err := some m, Stack := "" }) = m := by
  constructor
  · intro hs
    simp [EnrichedError.errorRender, hs]
  · simp [EnrichedError.errorRender]

/-- Witness for C9 at a concrete envelope. -/
theorem enrichedError_render_spec_witness :
    EnrichedError.errorRender (some { Err := some "boom", Stack := "tr" })
        = "boom" ++ "\nStack trace:\n" ++ "tr"
      ∧ EnrichedError.errorRender (some { Err := some "boom", Stack := "" }) = "boom" :=
  ⟨(enrichedError_render_spec "boom" "tr").1 (by decide),
   (enrichedError_render_spec "boom" "tr").2⟩

/-! ### C1 and C2: divergences between the code and the documented
behaviour -/

/-- C1: the claim (and the setters' own documentation) says request-level
setters never affect the client because the first one clones the Option
Set.  In the code, `NewRequest` stores the client's `requestOptions`
pointer itself and the setters mutate through it with no clone: after a
fresh client's request calls `SetHeader`, the client's own Option Set
has gained the header. -/
theorem request_setter_mutates_client_options :
    (HttpClient.NewRequest (NewHttpClient heap0).2 "GET" "/test" none).optionsAddr
        = (NewHttpClient heap0).2.requestOptionsAddr
      ∧ ((NewHttpClient heap0).1.opts (NewHttpClient heap0).2.requestOptionsAddr).Headers
        = none
      ∧ ((Request.SetHeader (NewHttpClient heap0).1
            (HttpClient.NewRequest (NewHttpClient heap0).2 "GET" "/test" none)
            "X-Test" "test-value").opts
          (NewHttpClient heap0).2.requestOptionsAddr).Headers
        = some [("X-Test", "test-value")] :=
  ⟨rfl, rfl, rfl⟩

/-- A request that asked for response decoding, pointed at a transport
that fails (connection refused). -/
def transportFailRequest : RequestState :=
  { method := "GET"
    path := "http://example.com"
    body := none
    unmarshalResult := true
    options :=
      { BodyMarshaler := some BodyMarshalerRef.noop
        BodyUnmarshaler := some BodyUnmarshalerRef.noop
        Headers := none
        OnRequestReady := none
        OnResponseReady := none
        OnErrorHooks := []
        StackTraceEnabled := false } }

def transportFailEnv : DoEnv :=
  { marshalErr := none
    newRequestErr := none
    marshalerHookErr := none
    unmarshalerHookErr := none
    requestReadyHookErr := none
    dispatch := Except.error "connection refused"
    responseReadyHookErr := none
    unmarshalErr := none
    stack := "" }

/-- C2: the claim says that on transport failure `Do` returns a nil
response with the wrapped error.  In the code, the deferred cleanup runs
`resp.Body.Close()` whenever decoding was requested, and on transport
failure `resp` is nil, so the call panics with a nil-pointer dereference
instead of returning; the body also is not closed. -/
theorem do_transport_failure_with_decode_panics :
    (RequestState.Do transportFailRequest transportFailEnv).outcome = DoOutcome.panics
      ∧ (RequestState.Do transportFailRequest transportFailEnv).dispatched = true
      ∧ (RequestState.Do transportFailRequest transportFailEnv).bodyCloses = 0 :=
  ⟨rfl, rfl, rfl⟩

/-! ### C3: the status-class check -/

/-- C3: for every response received by `Do` (transport dispatch
succeeded and every configured hook passed): a status code in
`[200,300)` never synthesizes a status error, while a status code
outside that range produces an error whose rendered text contains the
exact numeric code, with the response still returned alongside the
error. -/
theorem status_class_check (r : RequestState) (env : DoEnv) (resp : Response)
    (hm : r.body.isSome = true → r.options.BodyMarshaler.isSome = true ∧ env.marshalErr = none)
    (hn : env.newRequestErr = none)
    (hh : ∀ t, env.hookErr t = none)
    (hd : env.dispatch = Except.ok resp)
    (hrh : env.responseReadyHookErr = none) :
    (200 ≤ resp.StatusCode ∧ resp.StatusCode < 300 →
      (RequestState.Do r env).statusErrorSynthesized = false)
    ∧ (¬(200 ≤ resp.StatusCode ∧ resp.StatusCode < 300) →
      (RequestState.Do r env).statusErrorSynthesized = true
      ∧ ∃ e, (RequestState.Do r env).outcome = DoOutcome.result (some resp) (some e)
        ∧ ∃ pre post, e = pre ++ toString resp.StatusCode ++ post) := by
  have hrun := runBeforeHooks_allPass env
    ((if r.body.isSome then [HookTag.marshalerReady] else [])
      ++ (if r.options.BodyUnmarshaler.isSome then [HookTag.unmarshalerReady] else [])
      ++ (if r.options.OnRequestReady.isSome then [HookTag.userRequestReady] else []))
    (fun t _ => hh t)
  constructor
  · intro hcode
    have hsucc : IsSuccessResponse (some resp) = true := by
      simp only [IsSuccessResponse, Bool.and_eq_true, decide_eq_true_eq]
      exact hcode
    rw [do_eq_afterMarshal r env hm]
    simp only [doAfterMarshal, hn, hrun, hd, hrh, ite_self, hsucc, if_pos]
    split
    · split
      · split
        · rfl
        · rfl
      · rfl
    · rfl
  · intro hcode
    have hfail : IsSuccessResponse (some resp) = false := by
      simp only [IsSuccessResponse, Bool.and_eq_false_iff, decide_eq_false_iff_not]
      omega
    rw [do_eq_afterMarshal r env hm]
    simp only [doAfterMarshal, hn, hrun, hd, hrh, ite_self, hfail, Bool.false_eq_true,
      if_neg, if_false]
    exact ⟨by trivial, _, rfl, processErrorMsg_contains r.options env (resp.Status ++ ":")
      (toString resp.StatusCode)⟩

def notFoundResponse : Response :=
  { Status := "404 Not Found", StatusCode := 404 }

def notFoundEnv : DoEnv :=
  { marshalErr := none
    newRequestErr := none
    marshalerHookErr := none
    unmarshalerHookErr := none
    requestReadyHookErr := none
    dispatch := Except.ok notFoundResponse
    responseReadyHookErr := none
    unmarshalErr := none
    stack := "" }

def plainGetRequest : RequestState :=
  { method := "GET"
    path := "http://example.com/err"
    body := none
    unmarshalResult := false
    options :=
      { BodyMarshaler := some BodyMarshalerRef.noop
        BodyUnmarshaler := some BodyUnmarshalerRef.noop
        Headers := none
        OnRequestReady := none
        OnResponseReady := none
        OnErrorHooks := []
        StackTraceEnabled := false } }

/-- Witness for C3: a 404 response yields a returned response together
with an error whose text carries the numeric code. -/
theorem status_class_check_witness :
    (RequestState.Do plainGetRequest notFoundEnv).statusErrorSynthesized = true
      ∧ ∃ e, (RequestState.Do plainGetRequest notFoundEnv).outcome
          = DoOutcome.result (some notFoundResponse) (some e)
        ∧ ∃ pre post, e = pre ++ toString notFoundResponse.StatusCode ++ post :=
  (status_class_check plainGetRequest notFoundEnv notFoundResponse
    (by decide) rfl (fun t => by cases t <;> rfl) rfl rfl).2 (by decide)

/-! ### C4: ready-hook order and fail-fast -/

/-- C4: when the marshaling phase and request construction succeed, the
before-request ready-hooks run strictly in registration order — the
marshaler's hook first (present exactly when a body is marshaled), then
the unmarshaler's hook (when configured), then the user-supplied
request-ready hook last — and if every registered hook passes, the
transport is dispatched, while the first failing hook aborts the call
before any dispatch, returning no response together with the wrapped
hook error, the error hooks observing the original body. -/
theorem ready_hooks_order_and_failfast (r : RequestState) (env : DoEnv)
    (hm : r.body.isSome = true → r.options.BodyMarshaler.isSome = true ∧ env.marshalErr = none)
    (hn : env.newRequestErr = none) :
    (registeredHooks r
        = (if r.body.isSome then [HookTag.marshalerReady] else [])
          ++ (if r.options.BodyUnmarshaler.isSome then [HookTag.unmarshalerReady] else [])
          ++ (if r.options.OnRequestReady.isSome then [HookTag.userRequestReady] else []))
    ∧ ((runBeforeHooks env (registeredHooks r)).2 = none →
        (RequestState.Do r env).hooksRun = registeredHooks r
        ∧ (RequestState.Do r env).dispatched = true)
    ∧ (∀ l1 t l2 e, registeredHooks r = l1 ++ t :: l2 →
        (∀ x ∈ l1, env.hookErr x = none) → env.hookErr t = some e →
        (RequestState.Do r env).hooksRun = l1 ++ [t]
        ∧ (RequestState.Do r env).outcome = DoOutcome.result none
            (some (processErrorMsg r.options env ("on request ready hook: " ++ e)))
        ∧ (RequestState.Do r env).dispatched = false
        ∧ (RequestState.Do r env).errorHookBody = some r.body) := by
  refine ⟨rfl, ?_, ?_⟩
  · intro hpass
    have hrun1 := runBeforeHooks_none_run env (registeredHooks r) hpass
    rw [do_eq_afterMarshal r env hm]
    simp only [doAfterMarshal, hn]
    rw [show ((if r.body.isSome then [HookTag.marshalerReady] else [])
        ++ (if r.options.BodyUnmarshaler.isSome then [HookTag.unmarshalerReady] else [])
        ++ (if r.options.OnRequestReady.isSome then [HookTag.userRequestReady] else []))
      = registeredHooks r from rfl]
    cases hres : (runBeforeHooks env (registeredHooks r)).2 with
    | some e => rw [hres] at hpass; cases hpass
    | none =>
      simp only [hres, hrun1]
      cases env.dispatch with
      | error e =>
        cases hu : r.unmarshalResult <;> simp [hu]
      | ok resp =>
        cases hrh : (if r.options.OnResponseReady.isSome
            then env.responseReadyHookErr else none) with
        | some e => simp [hrh]
        | none =>
          simp only [hrh]
          split
          · split
            · split
              · split <;> exact ⟨rfl, rfl⟩
              · exact ⟨rfl, rfl⟩
            · exact ⟨rfl, rfl⟩
          · split
            · exact ⟨rfl, rfl⟩
            · exact ⟨rfl, rfl⟩
  · intro l1 t l2 e hsplit h1 ht
    have hrun2 := runBeforeHooks_firstFail env l1 t l2 e h1 ht
    rw [do_eq_afterMarshal r env hm]
    simp only [doAfterMarshal, hn]
    rw [show ((if r.body.isSome then [HookTag.marshalerReady] else [])
        ++ (if r.options.BodyUnmarshaler.isSome then [HookTag.unmarshalerReady] else [])
        ++ (if r.options.OnRequestReady.isSome then [HookTag.userRequestReady] else []))
      = registeredHooks r from rfl]
    rw [hsplit, hrun2]
    exact ⟨rfl, rfl, rfl, rfl⟩

/-- A request whose only registered ready-hook is the user-supplied
request-ready hook (no body, no unmarshaler), which fails. -/
def hookFailRequest : RequestState :=
  { method := "GET"
    path := "http://example.com/hooks"
    body := none
    unmarshalResult := false
    options :=
      { BodyMarshaler := some BodyMarshalerRef.noop
        BodyUnmarshaler := none
        Headers := none
        OnRequestReady := some 7
        OnResponseReady := none
        OnErrorHooks := []
        StackTraceEnabled := false } }

def hookFailEnv : DoEnv :=
  { marshalErr := none
    newRequestErr := none
    marshalerHookErr := none
    unmarshalerHookErr := none
    requestReadyHookErr := some "request hook error"
    dispatch := Except.error "never dispatched"
    responseReadyHookErr := none
    unmarshalErr := none
    stack := "" }

/-- Witness for C4: the failing request-ready hook aborts the call with
no dispatch and a wrapped error. -/
theorem ready_hooks_order_and_failfast_witness :
    (RequestState.Do hookFailRequest hookFailEnv).hooksRun = [HookTag.userRequestReady]
      ∧ (RequestState.Do hookFailRequest hookFailEnv).outcome = DoOutcome.result none
          (some (processErrorMsg hookFailRequest.options hookFailEnv
            ("on request ready hook: " ++ "request hook error")))
      ∧ (RequestState.Do hookFailRequest hookFailEnv).dispatched = false
      ∧ (RequestState.Do hookFailRequest hookFailEnv).errorHookBody
          = some hookFailRequest.body := by
  have h := (ready_hooks_order_and_failfast hookFailRequest hookFailEnv
    (by decide) rfl).2.2 [] HookTag.userRequestReady [] "request hook error"
    (by decide) (by simp) rfl
  simpa using h

/-! ### C8: decode requested without an unmarshaler -/

/-- C8: when decoding was requested but no unmarshaler is configured and
the transport returned a success-class response (hooks all passing), `Do`
returns the response together with an error whose message identifies the
missing-unmarshaler condition. -/
theorem decode_without_unmarshaler_errors (r : RequestState) (env : DoEnv) (resp : Response)
    (hu : r.unmarshalResult = true)
    (hbu : r.options.BodyUnmarshaler = none)
    (hm : r.body.isSome = true → r.options.BodyMarshaler.isSome = true ∧ env.marshalErr = none)
    (hn : env.newRequestErr = none)
    (hh : ∀ t, env.hookErr t = none)
    (hd : env.dispatch = Except.ok resp)
    (hrh : env.responseReadyHookErr = none)
    (hsc : 200 ≤ resp.StatusCode ∧ resp.StatusCode < 300) :
    ∃ e, (RequestState.Do r env).outcome = DoOutcome.result (some resp) (some e)
      ∧ ∃ pre post, e = pre ++ "body unmarshaler is not set" ++ post := by
  have hrun := runBeforeHooks_allPass env
    ((if r.body.isSome then [HookTag.marshalerReady] else [])
      ++ (if r.options.BodyUnmarshaler.isSome then [HookTag.unmarshalerReady] else [])
      ++ (if r.options.OnRequestReady.isSome then [HookTag.userRequestReady] else []))
    (fun t _ => hh t)
  have hsucc : IsSuccessResponse (some resp) = true := by
    simp only [IsSuccessResponse, Bool.and_eq_true, decide_eq_true_eq]
    exact hsc
  have hmsg : "result destination is provided but body unmarshaler is not set"
      = "result destination is provided but " ++ "body unmarshaler is not set" := by decide
  rw [do_eq_afterMarshal r env hm]
  simp only [doAfterMarshal, hn, hrun]
  simp only [hd, hrh, ite_self, hsucc, if_pos, hu, hbu, if_true]
  refine ⟨_, rfl, ?_⟩
  rw [hmsg]
  exact processErrorMsg_contains r.options env "result destination is provided but "
    "body unmarshaler is not set"

def okResponse : Response :=
  { Status := "200 OK", StatusCode := 200 }

def missingUnmarshalerRequest : RequestState :=
  { method := "GET"
    path := "http://example.com/missing-unmarshaler"
    body := none
    unmarshalResult := true
    options :=
      { BodyMarshaler := some BodyMarshalerRef.noop
        BodyUnmarshaler := none
        Headers := none
        OnRequestReady := none
        OnResponseReady := none
        OnErrorHooks := []
        StackTraceEnabled := false } }

def missingUnmarshalerEnv : DoEnv :=
  { marshalErr := none
    newRequestErr := none
    marshalerHookErr := none
    unmarshalerHookErr := none
    requestReadyHookErr := none
    dispatch := Except.ok okResponse
    responseReadyHookErr := none
    unmarshalErr := none
    stack := "" }

/-- Witness for C8 at a concrete request and 200 response. -/
theorem decode_without_unmarshaler_errors_witness :
    ∃ e, (RequestState.Do missingUnmarshalerRequest missingUnmarshalerEnv).outcome
        = DoOutcome.result (some okResponse) (some e)
      ∧ ∃ pre post, e = pre ++ "body unmarshaler is not set" ++ post :=
  decode_without_unmarshaler_errors missingUnmarshalerRequest missingUnmarshalerEnv
    okResponse rfl rfl (by decide) rfl (fun t => by cases t <;> rfl) rfl rfl (by decide)

/-! ### C5: header merging between client and request scope -/

/-- Heap after a fresh client sets `Hc` and a request created from it
sets `Hr`. -/
def clientThenRequestHeadersHeap (Hc Hr : List (String × String)) : Heap :=
  Request.SetHeaders
    (HttpClient.SetHeaders (NewHttpClient heap0).1 (NewHttpClient heap0).2 Hc)
    (HttpClient.NewRequest (NewHttpClient heap0).2 "GET" "/x" none) Hr

/-- The headers `Do` applies onto the transport request for that
request. -/
def effectiveRequestHeaders (Hc Hr : List (String × String)) : List (String × String) :=
  appliedRequestHeaders ((clientThenRequestHeadersHeap Hc Hr).opts
    (HttpClient.NewRequest (NewHttpClient heap0).2 "GET" "/x" none).optionsAddr)

/-- C5: for all header sets `Hc` (client level) and `Hr` (request
level), the header applied to the transport request for a key set at the
request level is the request-level value (overriding any client-level
value for the same key), and a key set only at the client level keeps
its client-level value. -/
theorem header_merge_request_overrides_client
    (Hc Hr : List (String × String))
    (hcnd : (Hc.map Prod.fst).Nodup) (hrnd : (Hr.map Prod.fst).Nodup) (k v : String) :
    ((k, v) ∈ Hr → getHeader (effectiveRequestHeaders Hc Hr) k = some v)
    ∧ ((k, v) ∈ Hc → k ∉ Hr.map Prod.fst →
        getHeader (effectiveRequestHeaders Hc Hr) k = some v) := by
  have heq : effectiveRequestHeaders Hc Hr
      = mergeHeaders [] (mergeHeaders (mergeHeaders [] Hc) Hr) := rfl
  have hnd1 : ((mergeHeaders [] Hc).map Prod.fst).Nodup :=
    keys_nodup_mergeHeaders [] Hc (by simp)
  have hnd2 : ((mergeHeaders (mergeHeaders [] Hc) Hr).map Prod.fst).Nodup :=
    keys_nodup_mergeHeaders _ Hr hnd1
  constructor
  · intro hmem
    rw [heq, getHeader_copy _ k hnd2]
    exact getHeader_mergeHeaders_mem _ Hr k v hrnd hmem
  · intro hmem hnot
    rw [heq, getHeader_copy _ k hnd2, getHeader_mergeHeaders_notMem _ Hr k hnot]
    exact getHeader_mergeHeaders_mem [] Hc k v hcnd hmem

/-- Witness for C5: the shared key `K` takes the request-level value,
the client-only key `A` survives. -/
theorem header_merge_request_overrides_client_witness :
    getHeader (effectiveRequestHeaders [("A", "1"), ("K", "c")] [("K", "r"), ("B", "2")]) "K"
        = some "r"
      ∧ getHeader (effectiveRequestHeaders [("A", "1"), ("K", "c")] [("K", "r"), ("B", "2")]) "A"
        = some "1" :=
  ⟨(header_merge_request_overrides_client [("A", "1"), ("K", "c")] [("K", "r"), ("B", "2")]
      (by decide) (by decide) "K" "r").1 (by decide),
   (header_merge_request_overrides_client [("A", "1"), ("K", "c")] [("K", "r"), ("B", "2")]
      (by decide) (by decide) "A" "1").2 (by decide) (by decide)⟩

/-! ### C6: clone independence -/

/-- The mutations the claim quantifies over: header updates and the
transport timeout. -/
inductive ClientMutation
  | mutHeader (k v : String)
  | mutHeaders (m : List (String × String))
  | mutTimeout (t : Nat)

def applyClientMutation (h : Heap) (c : HttpClient) : ClientMutation → Heap
  | ClientMutation.mutHeader k v => HttpClient.SetHeader h c k v
  | ClientMutation.mutHeaders m => HttpClient.SetHeaders h c m
  | ClientMutation.mutTimeout t => HttpClient.SetTimeout h c t

/-- What a client observes: its transport timeout and its option set's
headers. -/
def observeClient (h : Heap) (c : HttpClient) : Nat × Option (List (String × String)) :=
  (h.transports c.clientAddr, (h.opts c.requestOptionsAddr).Headers)

/-- C6: `Clone` yields a fully independent client: applying any header
or timeout mutation to the clone leaves the original's observed headers
and timeout exactly as before the clone, and applying the mutation to
the original leaves the clone's observation unchanged. -/
theorem clone_mutation_independence (h : Heap) (c : HttpClient)
    (hct : c.clientAddr < h.transportsNext)
    (hco : c.requestOptionsAddr < h.optsNext) (μ : ClientMutation) :
    observeClient
        (applyClientMutation (HttpClient.Clone h c).1 (HttpClient.Clone h c).2 μ) c
      = observeClient h c
    ∧ observeClient (applyClientMutation (HttpClient.Clone h c).1 c μ)
        (HttpClient.Clone h c).2
      = observeClient (HttpClient.Clone h c).1 (HttpClient.Clone h c).2 := by
  have ht : c.clientAddr ≠ h.transportsNext := Nat.ne_of_lt hct
  have ho : c.requestOptionsAddr ≠ h.optsNext := Nat.ne_of_lt hco
  cases μ <;>
    simp [observeClient, applyClientMutation, HttpClient.Clone, HttpClient.SetHeader,
      HttpClient.SetHeaders, HttpClient.SetTimeout, updateOpts, writeCell, ht, ho,
      Ne.symm ht, Ne.symm ho]

/-- Witness for C6 on a freshly allocated client with a timeout
mutation. -/
theorem clone_mutation_independence_witness :
    observeClient
        (applyClientMutation
          (HttpClient.Clone (NewHttpClient heap0).1 (NewHttpClient heap0).2).1
          (HttpClient.Clone (NewHttpClient heap0).1 (NewHttpClient heap0).2).2
          (ClientMutation.mutTimeout 10)) (NewHttpClient heap0).2
      = observeClient (NewHttpClient heap0).1 (NewHttpClient heap0).2
    ∧ observeClient
        (applyClientMutation
          (HttpClient.Clone (NewHttpClient heap0).1 (NewHttpClient heap0).2).1
          (NewHttpClient heap0).2 (ClientMutation.mutTimeout 10))
        (HttpClient.Clone (NewHttpClient heap0).1 (NewHttpClient heap0).2).2
      = observeClient (HttpClient.Clone (NewHttpClient heap0).1 (NewHttpClient heap0).2).1
          (HttpClient.Clone (NewHttpClient heap0).1 (NewHttpClient heap0).2).2 :=
  clone_mutation_independence (NewHttpClient heap0).1 (NewHttpClient heap0).2
    (by decide) (by decide) (ClientMutation.mutTimeout 10)

/-! ### C10: `SetHeaders` copies the argument map's entries -/

/-- C10: `SetHeaders` copies the key/value entries of the argument map
`m` into the option set's own header map (allocated when absent), so for
any caller-owned map (a map object distinct from the stored one),
mutating `m` after the call never changes the stored headers. -/
theorem setHeadersOnHeap_copies (h : MapHeap) (o : OptionsHeadersField) (mAddr : Nat)
    (hm : mAddr < h.next)
    (halias : ∀ a, o.HeadersAddr = some a → a ≠ mAddr) :
    ∃ dst, (setHeadersOnHeap h o mAddr).2.HeadersAddr = some dst
      ∧ (setHeadersOnHeap h o mAddr).1.cells dst
          = mergeHeaders ((o.HeadersAddr.map h.cells).getD []) (h.cells mAddr)
      ∧ ∀ k v,
          (((setHeadersOnHeap h o mAddr).1.writeEntry mAddr k v).cells dst
            = (setHeadersOnHeap h o mAddr).1.cells dst) := by
  cases ha : o.HeadersAddr with
  | none =>
    refine ⟨h.next, ?_, ?_, ?_⟩
    · simp [setHeadersOnHeap, ha]
    · simp [setHeadersOnHeap, ha, writeCell_same]
    · intro k v
      have hne : h.next ≠ mAddr := Ne.symm (Nat.ne_of_lt hm)
      simp [setHeadersOnHeap, ha, MapHeap.writeEntry, writeCell, hne]
  | some a =>
    have hane : a ≠ mAddr := halias a ha
    refine ⟨a, ?_, ?_, ?_⟩
    · simp [setHeadersOnHeap, ha]
    · simp [setHeadersOnHeap, ha, writeCell_same]
    · intro k v
      simp [setHeadersOnHeap, ha, MapHeap.writeEntry, writeCell, hane]

/-- Witness for C10: copying a one-entry map into a nil `Headers` field,
then mutating the argument map. -/
theorem setHeadersOnHeap_copies_witness :
    ∃ dst,
      (setHeadersOnHeap
          { cells := fun _ => [("X", "1")], next := 1 }
          { HeadersAddr := none } 0).2.HeadersAddr = some dst
      ∧ (setHeadersOnHeap
          { cells := fun _ => [("X", "1")], next := 1 }
          { HeadersAddr := none } 0).1.cells dst
        = mergeHeaders ((Option.map
            (MapHeap.cells { cells := fun _ => [("X", "1")], next := 1 })
            (OptionsHeadersField.HeadersAddr { HeadersAddr := none })).getD [])
            (MapHeap.cells { cells := fun _ => [("X", "1")], next := 1 } 0)
      ∧ ∀ k v,
          (((setHeadersOnHeap
              { cells := fun _ => [("X", "1")], next := 1 }
              { HeadersAddr := none } 0).1.writeEntry 0 k v).cells dst
            = (setHeadersOnHeap
              { cells := fun _ => [("X", "1")], next := 1 }
              { HeadersAddr := none } 0).1.cells dst) :=
  setHeadersOnHeap_copies { cells := fun _ => [("X", "1")], next := 1 }
    { HeadersAddr := none } 0 (by decide) (fun a ha => Option.noConfusion ha)

end Httpreqx
